import Mathlib

/-!
Shallow embedding of the gatekeeper card-provisioning core
(github.com/ComputerScienceHouse/gatekeeper) in Lean 4, together with
theorems settling the frozen specification claims.

Conventions of the embedding:
* Go byte slices (`[]byte`) are `List Nat`, each element the byte value (< 256 by
  the Go type, not re-enforced here where the Go type already guarantees it).
* Go strings are `List Char`; `[]byte(s)` is `goStringBytes` (all strings involved
  are ASCII).
* Machine words are `Nat` with explicit `% 2 ^ 64` wrap-around.
* Fallible Go functions returning `(T, error)` become `Except String T`; a Go
  `error` *value* (which may be `nil`) is `Option String` (`none` = `nil`).
* The NFC card (freefare `DESFireTag`, an external device) is a `CardOracle`:
  a deterministic function from the operation history to each operation's outcome.
* Platform-dependent `unsafe.Sizeof` results are fields of `GoPlatform`
  (`amd64` carries the 64-bit values: 16 for a string header, 24 for a slice header).
-/

deriving instance DecidableEq for Except

namespace Gatekeeper

/-! ## Bytes and 64-bit words -/

/-- Truncate to a 64-bit word. -/
def w64 (x : Nat) : Nat := x % 2 ^ 64

/-- 64-bit wrapping addition. -/
def add64 (a b : Nat) : Nat := (a + b) % 2 ^ 64

/-- 64-bit right rotation (valid for `x < 2 ^ 64`, `n ≤ 64`). -/
def rotr64 (x n : Nat) : Nat := x / 2 ^ n + x % 2 ^ n * 2 ^ (64 - n)

/-- 64-bit logical right shift. -/
def shr64 (x n : Nat) : Nat := x / 2 ^ n

/-- 64-bit bitwise complement (valid for `x < 2 ^ 64`). -/
def not64 (x : Nat) : Nat := 2 ^ 64 - 1 - x

/-- Big-endian bytes of `n`, exactly `k` bytes (most significant first). -/
def beBytes : Nat → Nat → List Nat
  | 0, _ => []
  | k + 1, n => beBytes k (n / 256) ++ [n % 256]

/-- Big-endian interpretation of a byte list as a number
(the semantics of `math/big` `Int.SetBytes`). -/
def beNat (bs : List Nat) : Nat := bs.foldl (fun acc b => acc * 256 + b) 0

/-- Minimal big-endian bytes of a number
(the semantics of `math/big` `Int.Bytes`: no leading zero bytes, empty for 0). -/
def bigIntBytes (n : Nat) : List Nat :=
  if h : n = 0 then []
  else bigIntBytes (n / 256) ++ [n % 256]
termination_by n
decreasing_by exact Nat.div_lt_self (Nat.pos_of_ne_zero h) (by omega)

/-! ## SHA-512 (model of Go `crypto/sha512`, FIPS 180-4) -/

/-- SHA-512 `Ch(x,y,z)`. -/
def sha512Ch (x y z : Nat) : Nat := Nat.xor (Nat.land x y) (Nat.land (not64 x) z)

/-- SHA-512 `Maj(x,y,z)`. -/
def sha512Maj (x y z : Nat) : Nat :=
  Nat.xor (Nat.xor (Nat.land x y) (Nat.land x z)) (Nat.land y z)

/-- SHA-512 `Σ₀`. -/
def bsig0 (x : Nat) : Nat := Nat.xor (Nat.xor (rotr64 x 28) (rotr64 x 34)) (rotr64 x 39)

/-- SHA-512 `Σ₁`. -/
def bsig1 (x : Nat) : Nat := Nat.xor (Nat.xor (rotr64 x 14) (rotr64 x 18)) (rotr64 x 41)

/-- SHA-512 `σ₀`. -/
def ssig0 (x : Nat) : Nat := Nat.xor (Nat.xor (rotr64 x 1) (rotr64 x 8)) (shr64 x 7)

/-- SHA-512 `σ₁`. -/
def ssig1 (x : Nat) : Nat := Nat.xor (Nat.xor (rotr64 x 19) (rotr64 x 61)) (shr64 x 6)

/-- The eight-word SHA-512 working state. -/
structure H8 where
  h0 : Nat
  h1 : Nat
  h2 : Nat
  h3 : Nat
  h4 : Nat
  h5 : Nat
  h6 : Nat
  h7 : Nat

/-- SHA-512 initial hash value (FIPS 180-4 section 5.3.5, decimal). -/
def IV512 : H8 :=
  ⟨7640891576956012808, 13503953896175478587,
   4354685564936845355, 11912009170470909681,
   5840696475078001361, 11170449401992604703,
   2270897969802886507, 6620516959819538809⟩

/-- The 80 SHA-512 round constants (FIPS 180-4 section 4.2.3, decimal). -/
def K512 : List Nat :=
  [4794697086780616226, 8158064640168781261, 13096744586834688815,
   16840607885511220156, 4131703408338449720, 6480981068601479193,
   10538285296894168987, 12329834152419229976, 15566598209576043074,
   1334009975649890238, 2608012711638119052, 6128411473006802146,
   8268148722764581231, 9286055187155687089, 11230858885718282805,
   13951009754708518548, 16472876342353939154, 17275323862435702243,
   1135362057144423861, 2597628984639134821, 3308224258029322869,
   5365058923640841347, 6679025012923562964, 8573033837759648693,
   10970295158949994411, 12119686244451234320, 12683024718118986047,
   13788192230050041572, 14330467153632333762, 15395433587784984357,
   489312712824947311, 1452737877330783856, 2861767655752347644,
   3322285676063803686, 5560940570517711597, 5996557281743188959,
   7280758554555802590, 8532644243296465576, 9350256976987008742,
   10552545826968843579, 11727347734174303076, 12113106623233404929,
   14000437183269869457, 14369950271660146224, 15101387698204529176,
   15463397548674623760, 17586052441742319658, 1182934255886127544,
   1847814050463011016, 2177327727835720531, 2830643537854262169,
   3796741975233480872, 4115178125766777443, 5681478168544905931,
   6601373596472566643, 7507060721942968483, 8399075790359081724,
   8693463985226723168, 9568029438360202098, 10144078919501101548,
   10430055236837252648, 11840083180663258601, 13761210420658862357,
   14299343276471374635, 14566680578165727644, 15097957966210449927,
   16922976911328602910, 17689382322260857208, 500013540394364858,
   748580250866718886, 1242879168328830382, 1977374033974150939,
   2944078676154940804, 3659926193048069267, 4368137639120453308,
   4836135668995329356, 5532061633213252278, 6448918945643986474,
   6902733635092675308, 7801388544844847127]

/-- Split a byte list into big-endian 64-bit words, 8 bytes per word. -/
def toWords (l : List Nat) : List Nat :=
  if h : l = [] then []
  else (l.take 8).foldl (fun acc b => acc * 256 + b) 0 :: toWords (l.drop 8)
termination_by l.length
decreasing_by
  simp only [List.length_drop]
  have : 0 < l.length := List.length_pos.mpr h
  omega

/-- One new word of the SHA-512 message schedule, from the last 16 words. -/
def newWord (w : List Nat) : Nat :=
  add64 (add64 (ssig1 (w.getD (w.length - 2) 0)) (w.getD (w.length - 7) 0))
        (add64 (ssig0 (w.getD (w.length - 15) 0)) (w.getD (w.length - 16) 0))

/-- Extend the message schedule by `n` further words. -/
def scheduleExtend : List Nat → Nat → List Nat
  | w, 0 => w
  | w, n + 1 => scheduleExtend (w ++ [newWord w]) n

/-- One SHA-512 round. -/
def roundStep (st : H8) (kw : Nat × Nat) : H8 :=
  let t1 := add64 st.h7 (add64 (bsig1 st.h4) (add64 (sha512Ch st.h4 st.h5 st.h6) (add64 kw.1 kw.2)))
  let t2 := add64 (bsig0 st.h0) (sha512Maj st.h0 st.h1 st.h2)
  ⟨add64 t1 t2, st.h0, st.h1, st.h2, add64 st.h3 t1, st.h4, st.h5, st.h6⟩

/-- SHA-512 compression of one 128-byte block. -/
def sha512Compress (st : H8) (block : List Nat) : H8 :=
  let w := scheduleExtend (toWords block) 64
  let f := (K512.zip w).foldl roundStep st
  ⟨add64 st.h0 f.h0, add64 st.h1 f.h1, add64 st.h2 f.h2, add64 st.h3 f.h3,
   add64 st.h4 f.h4, add64 st.h5 f.h5, add64 st.h6 f.h6, add64 st.h7 f.h7⟩

/-- SHA-512 padding: `0x80`, zeros, then the 128-bit big-endian bit length,
to a multiple of 128 bytes. -/
def pad512 (msg : List Nat) : List Nat :=
  msg ++ [0x80] ++ List.replicate ((128 - (msg.length + 17) % 128) % 128) 0
      ++ beBytes 16 (8 * msg.length)

/-- Split into 128-byte blocks. -/
def chunks128 (l : List Nat) : List (List Nat) :=
  if h : l = [] then []
  else l.take 128 :: chunks128 (l.drop 128)
termination_by l.length
decreasing_by
  simp only [List.length_drop]
  have : 0 < l.length := List.length_pos.mpr h
  omega

/-- Big-endian serialization of one 64-bit word. -/
def w64be (x : Nat) : List Nat := beBytes 8 x

/-- Serialize the eight-word state to the 64-byte digest. -/
def digestBytes (st : H8) : List Nat :=
  w64be st.h0 ++ w64be st.h1 ++ w64be st.h2 ++ w64be st.h3 ++
  w64be st.h4 ++ w64be st.h5 ++ w64be st.h6 ++ w64be st.h7

/-- SHA-512 of a byte string (64-byte digest). -/
def sha512 (msg : List Nat) : List Nat :=
  digestBytes ((chunks128 (pad512 msg)).foldl sha512Compress IV512)

/-! ## HMAC-SHA-512 (model of Go `crypto/hmac` with `crypto.SHA512`, FIPS 198-1) -/

/-- The key zero-padded (or first hashed, when longer than the 128-byte
SHA-512 block) to one block. -/
def hmacKeyBlock (key : List Nat) : List Nat :=
  let k0 := if 128 < key.length then sha512 key else key
  k0 ++ List.replicate (128 - k0.length) 0

/-- HMAC-SHA-512 of `msg` under `key`. -/
def hmacSha512 (key msg : List Nat) : List Nat :=
  let k0 := hmacKeyBlock key
  sha512 ((k0.map (Nat.xor 0x5c)) ++ sha512 ((k0.map (Nat.xor 0x36)) ++ msg))

/-! ## Package `keys` (`keys/keys.go`, `keys/kdf.go`) -/

/-- A freefare DESFire AES key: 16 key bytes and a version
(`freefare.NewDESFireAESKey`). -/
structure DESFireKey where
  bytes : List Nat
  version : Nat
deriving DecidableEq

/-- A freefare 3-byte application identifier. -/
structure DESFireAid where
  b0 : Nat
  b1 : Nat
  b2 : Nat
deriving DecidableEq

/-- `freefare.NewDESFireAid`: a 3-byte AID from a `uint32`, least significant
byte first. -/
def NewDESFireAid (aid : Nat) : DESFireAid :=
  ⟨aid % 256, aid / 256 % 256, aid / 65536 % 256⟩

/-- `keys.GenDESFireKey`: copy the input into a zeroed 16-byte array
(`copy` takes at most 16 bytes and leaves the zero padding beyond the input's
length), then build an AES key with version 0. -/
def GenDESFireKey (key : List Nat) : DESFireKey :=
  ⟨key.take 16 ++ List.replicate (16 - key.length) 0, 0⟩

/-- The state of a Go `hash.Hash`/`hmac` writer: the bytes absorbed so far.
`Write` appends and, per the `hash.Hash` contract, never returns an error. -/
def macWrite (st : List Nat) (p : List Nat) : List Nat × Nat × Option String :=
  (st ++ p, p.length, none)

/-- `keys.DeriveDESFireKey`: HMAC (with `crypto.SHA512`) keyed by `secret`,
fed the three AID bytes, then the key number byte, then the diversification
data, each in its own `Write` call; the MAC output is passed to
`GenDESFireKey`. Each `Write`'s error is checked as in the source (the
`hash.Hash` contract makes those branches unreachable). -/
def DeriveDESFireKey (secret : List Nat) (appId : DESFireAid) (keyNum : Nat)
    (data : List Nat) : Except String DESFireKey :=
  match macWrite [] [appId.b0, appId.b1, appId.b2] with
  | (_, _, some e) => .error e
  | (mac1, _, none) =>
    match macWrite mac1 [keyNum] with
    | (_, _, some e) => .error e
    | (mac2, _, none) =>
      match macWrite mac2 data with
      | (_, _, some e) => .error e
      | (mac3, _, none) => .ok (GenDESFireKey (hmacSha512 secret mac3))

/-! ## UUIDs (model of the external `github.com/google/uuid` package) -/

/-- A 128-bit identifier: its 16 bytes. -/
structure UUID where
  bytes : List Nat
deriving DecidableEq

/-- Lower-case hexadecimal digit for `n < 16`. -/
def hexDigit (n : Nat) : Char := Char.ofNat (if n < 10 then 48 + n else 87 + n)

/-- Two lower-case hex digits of a byte. -/
def byteHex (b : Nat) : List Char := [hexDigit (b / 16 % 16), hexDigit (b % 16)]

/-- Lower-case hex of a byte list. -/
def hexStr : List Nat → List Char
  | [] => []
  | b :: bs => byteHex b ++ hexStr bs

/-- `uuid.UUID.String()`: canonical 8-4-4-4-12 dashed lower-case hex form. -/
def uuidString (u : UUID) : List Char :=
  hexStr (u.bytes.take 4) ++ ['-'] ++ hexStr ((u.bytes.drop 4).take 2) ++ ['-'] ++
  hexStr ((u.bytes.drop 6).take 2) ++ ['-'] ++ hexStr ((u.bytes.drop 8).take 2) ++ ['-'] ++
  hexStr (u.bytes.drop 10)

/-- `strings.Replace(s, "-", "", -1)`: remove every dash. -/
def stripDashes (s : List Char) : List Char := s.filter (· ≠ '-')

/-- `[]byte(s)` for an ASCII Go string. -/
def goStringBytes (s : List Char) : List Nat := s.map Char.toNat

/-- Value of one hex digit character, `none` for a non-hex character. -/
def hexVal (c : Char) : Option Nat :=
  if '0' ≤ c ∧ c ≤ '9' then some (c.toNat - 48)
  else if 'a' ≤ c ∧ c ≤ 'f' then some (c.toNat - 87)
  else if 'A' ≤ c ∧ c ≤ 'F' then some (c.toNat - 55)
  else none

/-- Decode a list of hex digit pairs into bytes. -/
def hexPairsDecode : List Char → Option (List Nat)
  | [] => some []
  | c1 :: c2 :: rest =>
    match hexVal c1, hexVal c2, hexPairsDecode rest with
    | some hi, some lo, some bs => some ((hi * 16 + lo) :: bs)
    | _, _, _ => none
  | _ => none

/-- Model of `uuid.Parse`/`uuid.ParseBytes`: accepts the canonical 36-character
dashed form and the 32-character undashed form (the urn-prefixed and braced
forms the library also accepts are not used by this program and omitted). -/
def uuidParse (s : List Char) : Except String UUID :=
  if s.length = 36 then
    if s.getD 8 ' ' = '-' ∧ s.getD 13 ' ' = '-' ∧ s.getD 18 ' ' = '-' ∧ s.getD 23 ' ' = '-' then
      match hexPairsDecode (s.filter (· ≠ '-')) with
      | some bs => .ok ⟨bs⟩
      | none => .error "invalid UUID format"
    else .error "invalid UUID format"
  else if s.length = 32 then
    match hexPairsDecode s with
    | some bs => .ok ⟨bs⟩
    | none => .error "invalid UUID format"
  else .error "invalid UUID length"

/-- `uuid.ParseBytes` on raw bytes. -/
def uuidParseBytes (bs : List Nat) : Except String UUID :=
  uuidParse (bs.map Char.ofNat)

/-! ## Package `sig`: key encoding (`sig/encoding.go`)

The curve is the system-wide constant P-384 (`sig/keys.go`), so an EC public
key is modelled by its coordinate pair and a private key by the embedded
public key plus the scalar, mirroring Go's `ecdsa.PublicKey`/`ecdsa.PrivateKey`.
The external `crypto/x509` and `encoding/pem` serializers are modelled as
executable injective codecs: the exact byte format (ASN.1 DER, base64) is
abstracted (unary number encoding, hex body), which preserves everything the
source observes of them — round trips, the PEM type tag, and the *dynamic
type* of `x509.ParsePKIXPublicKey`'s result, which for an EC key is the
pointer `*ecdsa.PublicKey`, not the bare value type. -/

/-- Go `ecdsa.PublicKey` (curve fixed to P-384 system-wide). -/
structure ECPublicKey where
  x : Nat
  y : Nat
deriving DecidableEq

/-- Go `ecdsa.PrivateKey`: embedded public key plus scalar `D`. -/
structure ECPrivateKey where
  pub : ECPublicKey
  d : Nat
deriving DecidableEq

/-- Injective unary length encoding of a number, `0`-terminated. -/
def encNat (n : Nat) : List Nat := List.replicate n 1 ++ [0]

/-- Inverse of `encNat`, returning the remaining input. -/
def decNat : List Nat → Option (Nat × List Nat)
  | [] => none
  | 0 :: rest => some (0, rest)
  | 1 :: rest =>
    match decNat rest with
    | some (n, r) => some (n + 1, r)
    | none => none
  | _ => none

/-- Model of `x509.MarshalECPrivateKey` (SEC 1 encoding; errors only for keys
on no curve, unrepresentable here). -/
def marshalECPrivateKey (k : ECPrivateKey) : Except String (List Nat) :=
  .ok ([1] ++ encNat k.d ++ encNat k.pub.x ++ encNat k.pub.y)

/-- Model of `x509.ParseECPrivateKey`. -/
def parseECPrivateKey (bs : List Nat) : Except String ECPrivateKey :=
  match bs with
  | 1 :: rest =>
    match decNat rest with
    | some (d, r1) =>
      match decNat r1 with
      | some (x, r2) =>
        match decNat r2 with
        | some (y, []) => .ok ⟨⟨x, y⟩, d⟩
        | _ => .error "x509: failed to parse EC private key"
      | none => .error "x509: failed to parse EC private key"
    | none => .error "x509: failed to parse EC private key"
  | _ => .error "x509: failed to parse EC private key"

/-- Model of `x509.MarshalPKIXPublicKey` for an EC key. -/
def marshalPKIXPublicKey (k : ECPublicKey) : Except String (List Nat) :=
  .ok ([2] ++ encNat k.x ++ encNat k.y)

/-- The dynamic (interface) value returned by `x509.ParsePKIXPublicKey`.
For an elliptic-curve subject key the library returns a `*ecdsa.PublicKey`
(`ecdsaPublicKeyRef`); the bare value type `ecdsa.PublicKey`
(`ecdsaPublicKeyVal`) is what a `v.(ecdsa.PublicKey)` type assertion matches,
and is never produced by the library. -/
inductive PKIXPublicKey where
  | ecdsaPublicKeyRef (k : ECPublicKey)
  | ecdsaPublicKeyVal (k : ECPublicKey)
deriving DecidableEq

/-- Model of `x509.ParsePKIXPublicKey`: for an EC subject key it returns a
`*ecdsa.PublicKey`. -/
def parsePKIXPublicKey (bs : List Nat) : Except String PKIXPublicKey :=
  match bs with
  | 2 :: rest =>
    match decNat rest with
    | some (x, r1) =>
      match decNat r1 with
      | some (y, []) => .ok (.ecdsaPublicKeyRef ⟨x, y⟩)
      | _ => .error "x509: failed to parse public key"
    | none => .error "x509: failed to parse public key"
  | _ => .error "x509: failed to parse public key"

/-- A PEM block: type tag and payload bytes (`pem.Block`). -/
structure PEMBlock where
  tag : List Char
  bytes : List Nat
deriving DecidableEq

/-- Model of `pem.EncodeToMemory`: delimited text block carrying the tag and
the payload (payload transfer encoding abstracted as hex). -/
def pemEncodeToMemory (b : PEMBlock) : List Char :=
  "-----BEGIN ".toList ++ b.tag ++ "-----\n".toList ++
  hexStr b.bytes ++ "\n-----END ".toList ++ b.tag ++ "-----\n".toList

/-- Model of `pem.Decode`: parse the framing produced by
`pemEncodeToMemory`, `none` on anything malformed. -/
def pemDecode (s : List Char) : Option PEMBlock :=
  let begMark := "-----BEGIN ".toList
  if begMark.isPrefixOf s then
    let rest := s.drop begMark.length
    let tag := rest.takeWhile (· ≠ '-')
    let rest2 := rest.drop tag.length
    let mark2 := "-----\n".toList
    if mark2.isPrefixOf rest2 then
      let rest3 := rest2.drop mark2.length
      let body := rest3.takeWhile (· ≠ '\n')
      let rest4 := rest3.drop body.length
      match hexPairsDecode body with
      | none => none
      | some bytes =>
        if rest4 = "\n-----END ".toList ++ tag ++ "-----\n".toList then
          some ⟨tag, bytes⟩
        else none
    else none
  else none

/-- `sig.EncodePrivateKey`: SEC 1 marshal, then a PEM block tagged
`EC PRIVATE KEY`. -/
def EncodePrivateKey (privateKey : ECPrivateKey) : Except String (List Char) :=
  match marshalECPrivateKey privateKey with
  | .error e => .error e
  | .ok x509Encoded => .ok (pemEncodeToMemory ⟨"EC PRIVATE KEY".toList, x509Encoded⟩)

/-- `sig.EncodePublicKey`: PKIX marshal, then a PEM block tagged
`PUBLIC KEY`. -/
def EncodePublicKey (publicKey : ECPublicKey) : Except String (List Char) :=
  match marshalPKIXPublicKey publicKey with
  | .error e => .error e
  | .ok x509Encoded => .ok (pemEncodeToMemory ⟨"PUBLIC KEY".toList, x509Encoded⟩)

/-- `sig.DecodePrivateKey`: decode the PEM block, reject a missing block or a
wrong type tag, then parse the EC private key. -/
def DecodePrivateKey (pemEncoded : List Char) : Except String ECPrivateKey :=
  match pemDecode pemEncoded with
  | none => .error "failed to decode PEM block containing private key"
  | some block =>
    if block.tag ≠ "EC PRIVATE KEY".toList then
      .error "failed to decode PEM block containing private key"
    else
      match parseECPrivateKey block.bytes with
      | .error e => .error e
      | .ok privateKey => .ok privateKey

/-- `sig.DecodePublicKey`: decode the PEM block, reject a missing block or a
wrong type tag, parse the PKIX key, then perform the source's
`publicKey.(ecdsa.PublicKey)` type assertion — which matches only the bare
value type, not the `*ecdsa.PublicKey` the parser returns. -/
def DecodePublicKey (pemEncoded : List Char) : Except String ECPublicKey :=
  match pemDecode pemEncoded with
  | none => .error "failed to decode PEM block containing public key"
  | some block =>
    if block.tag ≠ "PUBLIC KEY".toList then
      .error "failed to decode PEM block containing public key"
    else
      match parsePKIXPublicKey block.bytes with
      | .error e => .error e
      | .ok publicKey =>
        match publicKey with
        | .ecdsaPublicKeyVal ecdsaPublicKey => .ok ecdsaPublicKey
        | _ => .error "failed to parse PKIX block containing ECDSA public key"

/-- `sig.Decode`: decode the private key, then the public key. -/
def sigDecode (privateKey publicKey : List Char) :
    Except String (ECPrivateKey × ECPublicKey) :=
  match DecodePrivateKey privateKey with
  | .error e => .error e
  | .ok decodedPrivateKey =>
    match DecodePublicKey publicKey with
    | .error e => .error e
    | .ok decodedPublicKey => .ok (decodedPrivateKey, decodedPublicKey)

/-! ## Package `device`: constants and data model -/

/-- First AID of the MiFare Classic mapped range used for realm slots. -/
def baseAppId : Nat := 0xff77f0

/-- The master/PICC application id. -/
def masterAppId : Nat := 0

/-- The default (all-zero, version 0) master/application AES key. -/
def defaultDESFireKey : DESFireKey := ⟨List.replicate 16 0, 0⟩

def initialApplicationSettings : Nat := 0x9
def finalApplicationSettings : Nat := 0xE0
def initialPICCSettings : Nat := 0x09
def finalPICCSettings : Nat := 0x08

def initialUUIDFileSettings : Nat := 0x0000
def finalUUIDFileSettings : Nat := 0x1FFF
def finalAuthenticityFileSettings : Nat := 0x2F33

def mangledUUIDLength : Nat := 32
def authenticityRLength : Nat := 32
def authenticitySLength : Nat := 32
def authenticityFileSize : Nat := authenticityRLength + authenticitySLength

/-- freefare communication modes. -/
def commPlain : Nat := 0x00
def commEnciphered : Nat := 0x03

/-- `4 | freefare.CryptoAES` (`CryptoAES = 0x80`): the key-count/cipher flag
passed to `CreateApplication`. -/
def aesFourKeys : Nat := 0x84

/-- `device.Realm`. -/
structure Realm where
  name : List Char
  slot : Nat
  associationID : UUID
  authKey : List Nat
  readKey : List Nat
  updateKey : List Nat
  publicKey : ECPublicKey
  privateKey : ECPrivateKey
deriving DecidableEq

/-- One card operation of the freefare `DESFireTag` session, with the
arguments the source passes. -/
inductive CardOp where
  | cardUID
  | selectApplication (aid : DESFireAid)
  | authenticate (keyNo : Nat) (key : DESFireKey)
  | createApplication (aid : DESFireAid) (settings : Nat) (numKeysFlags : Nat)
  | changeKey (keyNo : Nat) (newKey : DESFireKey) (oldKey : DESFireKey)
  | createDataFile (fileNo : Nat) (comm : Nat) (accessRights : Nat) (size : Nat) (backup : Bool)
  | writeData (fileNo : Nat) (offset : Nat) (data : List Nat)
  | changeFileSettings (fileNo : Nat) (comm : Nat) (accessRights : Nat)
  | readData (fileNo : Nat) (offset : Nat) (length : Nat)
  | changeKeySettings (settings : Nat)
  | setConfiguration (disableFormat : Bool) (enableRandomUID : Bool)
deriving DecidableEq

/-- The card and the ambient nondeterminism, as a deterministic oracle over
the operation history:
* `cardUID` — result of `target.CardUID()` (the UID string's bytes), `none`
  meaning the call failed;
* `run tr op` — outcome of a state-changing card operation after history
  `tr`: `none` = error, `some n` = success (`n` is the byte count returned by
  `WriteData`, ignored for other operations);
* `read tr fileNo offset len` — outcome of `ReadData`: `none` = error,
  `some (n, bs)` = success with returned length `n` and buffer contents `bs`;
* `sign key msg` — model of `sig.Sign` (ECDSA P-384 over SHA-512 with a
  random nonce drawn from the OS): the signature pair `(R, S)` or an error. -/
structure CardOracle where
  cardUID : Option (List Nat)
  run : List CardOp → CardOp → Option Nat
  read : List CardOp → Nat → Nat → Nat → Option (Nat × List Nat)
  sign : ECPrivateKey → List Nat → Except String (Nat × Nat)

/-- Go `unsafe.Sizeof` results for the descriptor types the source measures;
on 64-bit platforms a string header is 16 bytes and a slice header 24. -/
structure GoPlatform where
  stringHeaderSize : Nat
  sliceHeaderSize : Nat

/-- The 64-bit platform (`GOARCH=amd64`/`arm64`). -/
def amd64 : GoPlatform := ⟨16, 24⟩

/-- A Go `error` value: `none` is `nil`. -/
abbrev GoError := Option String

/-! ## Package `device`: the provisioning pass `Issue` (part_000 lines 171–364)

The straight-line card-operation runs of `Issue` are represented as lists of
`Step`s interpreted by `runSteps`, which attempts each operation in order
against the oracle and mirrors the source's control flow exactly: a failing
card operation makes the pass `return nil` (the source discards the error —
see C1), and a short write returns the corresponding `errors.New` message. -/

/-- One statement of a straight-line card-operation sequence: a plain
operation whose error aborts with `return nil`, or a `WriteData` whose
returned length is checked against `expected`. -/
inductive Step where
  | simple (op : CardOp)
  | write (fileNo : Nat) (offset : Nat) (data : List Nat) (expected : Nat) (errMsg : String)

/-- The card operation a step attempts. -/
def stepOp : Step → CardOp
  | .simple op => op
  | .write fileNo offset data _ _ => .writeData fileNo offset data

/-- Interpret a straight-line operation sequence: attempt each operation in
order, extending the trace; on a card error return the Go `nil` error
(`some none`, the source's `return nil`); on a short write return the
source's `errors.New` message; `none` means fall through to the next
statement of `Issue`. -/
def runSteps (o : CardOracle) : List CardOp → List Step → List CardOp × Option GoError
  | tr, [] => (tr, none)
  | tr, .simple op :: rest =>
    match o.run tr op with
    | none => (tr ++ [op], some none)
    | some _ => runSteps o (tr ++ [op]) rest
  | tr, .write fileNo offset data expected errMsg :: rest =>
    match o.run tr (.writeData fileNo offset data) with
    | none => (tr ++ [.writeData fileNo offset data], some none)
    | some dataLen =>
      if dataLen = expected then runSteps o (tr ++ [.writeData fileNo offset data]) rest
      else (tr ++ [.writeData fileNo offset data], some (some errMsg))

/-- The diversified application auth key `Issue` derives for key slot 2
(line 203): system secret, the realm's application id, key number 2, the
association identifier's canonical string bytes. -/
def issueAppAuthKey (systemSecret : List Nat) (realm : Realm) : Except String DESFireKey :=
  DeriveDESFireKey systemSecret (NewDESFireAid (baseAppId + realm.slot)) 2
    (goStringBytes (uuidString realm.associationID))

/-- The diversified auth key `Authenticate` derives (line 398): the realm's
local auth secret, the realm's application id, key number 2, the canonical
string bytes of the identifier read from the card. -/
def authAppAuthKey (realm : Realm) (targetUUID : UUID) : Except String DESFireKey :=
  DeriveDESFireKey realm.authKey (NewDESFireAid (baseAppId + realm.slot)) 2
    (goStringBytes (uuidString targetUUID))

/-- The fixed per-realm card-operation sequence of `Issue` (lines 230–324):
select master app, authenticate, create the application, select it,
authenticate, change keys 1, 2, 3, create and write the UUID file, lock the
UUID file, create the authenticity file, write R then S, change the
application master key, re-authenticate, lock the key settings. -/
def realmSteps (appId : DESFireAid) (appMasterKey appReadKey appAuthKey appUpdateKey : DESFireKey)
    (mangled rBytes sBytes : List Nat) : List Step :=
  [.simple (.selectApplication (NewDESFireAid masterAppId)),
   .simple (.authenticate 0 defaultDESFireKey),
   .simple (.createApplication appId initialApplicationSettings aesFourKeys),
   .simple (.selectApplication appId),
   .simple (.authenticate 0 defaultDESFireKey),
   .simple (.changeKey 1 appReadKey defaultDESFireKey),
   .simple (.changeKey 2 appAuthKey defaultDESFireKey),
   .simple (.changeKey 3 appUpdateKey defaultDESFireKey),
   .simple (.createDataFile 1 commPlain initialUUIDFileSettings mangledUUIDLength false),
   .write 1 0 mangled mangledUUIDLength "failed to write UUID to target",
   .simple (.changeFileSettings 1 commEnciphered finalUUIDFileSettings),
   .simple (.createDataFile 2 commEnciphered finalAuthenticityFileSettings authenticityFileSize false),
   .write 2 0 rBytes authenticityRLength "failed to write authenticity file (R value) to target",
   .write 2 authenticityRLength sBytes authenticitySLength "failed to write authenticity file (S value) to target",
   .simple (.changeKey 0 appMasterKey defaultDESFireKey),
   .simple (.authenticate 0 appMasterKey),
   .simple (.changeKeySettings finalApplicationSettings)]

/-- The PICC-level finalization sequence of `Issue` (lines 327–360): reselect
the master application, authenticate, relax the key settings, rotate the PICC
master key, re-authenticate, lock the settings, enable random UID. -/
def piccSteps (piccMasterKey : DESFireKey) : List Step :=
  [.simple (.selectApplication (NewDESFireAid masterAppId)),
   .simple (.authenticate 0 defaultDESFireKey),
   .simple (.changeKeySettings initialPICCSettings),
   .simple (.changeKey 0 piccMasterKey defaultDESFireKey),
   .simple (.authenticate 0 piccMasterKey),
   .simple (.changeKeySettings finalPICCSettings),
   .simple (.setConfiguration false true)]

/-- The loop body of `Issue` for one realm (lines 186–325). The result's
second component is `none` to continue with the next realm, or `some r` when
the pass returns early with Go error value `r` (`r = none` on the error paths
that `return nil`). The `unsafe.Sizeof` checks compare the platform's string
and slice header sizes — not any data length — against the declared widths,
exactly as the source does. -/
def issueRealm (p : GoPlatform) (o : CardOracle) (systemSecret uid : List Nat)
    (tr : List CardOp) (realm : Realm) : List CardOp × Option GoError :=
  let appId := NewDESFireAid (baseAppId + realm.slot)
  let uuidArr := goStringBytes (uuidString realm.associationID)
  let mangled := goStringBytes (stripDashes (uuidString realm.associationID))
  if p.stringHeaderSize ≠ mangledUUIDLength then
    (tr, some (some "unexpected size of mangled UUID"))
  else
    match DeriveDESFireKey systemSecret appId 0 uid with
    | .error _ => (tr, some none)
    | .ok appMasterKey =>
      let appReadKey := GenDESFireKey realm.readKey
      match issueAppAuthKey systemSecret realm with
      | .error e => (tr, some (some e))
      | .ok appAuthKey =>
        match DeriveDESFireKey systemSecret appId 3 uuidArr with
        | .error e => (tr, some (some e))
        | .ok appUpdateKey =>
          match o.sign realm.privateKey uuidArr with
          | .error e => (tr, some (some e))
          | .ok rs =>
            let rBytes := bigIntBytes rs.1
            let sBytes := bigIntBytes rs.2
            if p.sliceHeaderSize ≠ authenticityRLength then
              (tr, some (some "unexpected size of authenticity data (R value)"))
            else if p.sliceHeaderSize ≠ authenticitySLength then
              (tr, some (some "unexpected size of authenticity data (S value)"))
            else
              runSteps o tr
                (realmSteps appId appMasterKey appReadKey appAuthKey appUpdateKey
                  mangled rBytes sBytes)

/-- The realm loop of `Issue`: run each realm's body, stopping at the first
early return. -/
def issueLoop (p : GoPlatform) (o : CardOracle) (systemSecret uid : List Nat) :
    List CardOp → List Realm → List CardOp × Option GoError
  | tr, [] => (tr, none)
  | tr, realm :: rest =>
    match issueRealm p o systemSecret uid tr realm with
    | (tr2, some r) => (tr2, some r)
    | (tr2, none) => issueLoop p o systemSecret uid tr2 rest

/-- `device.Issue` (part_000 lines 171–364): read the card UID, derive the
PICC master key, provision each realm, then finalize the PICC. The result is
the full ordered trace of attempted card operations and the Go error value
the pass returns (`none` = `nil`). Failure paths that the source handles
with `return nil` yield `none` here, exactly as written. -/
def Issue (p : GoPlatform) (o : CardOracle) (systemSecret : List Nat)
    (realms : List Realm) : List CardOp × GoError :=
  match o.cardUID with
  | none => ([CardOp.cardUID], none)
  | some uid =>
    match DeriveDESFireKey systemSecret (NewDESFireAid masterAppId) 0 uid with
    | .error _ => ([CardOp.cardUID], none)
    | .ok piccMasterKey =>
      let lr := issueLoop p o systemSecret uid [CardOp.cardUID] realms
      match lr.2 with
      | some r => (lr.1, r)
      | none =>
        let pr := runSteps o lr.1 (piccSteps piccMasterKey)
        match pr.2 with
        | some r => (pr.1, r)
        | none => (pr.1, none)

/-! ## Canonical (fully successful) operation traces of `Issue` -/

/-- The card operations one realm's provisioning contributes when every step
succeeds, with the key values `Issue` computes (the derivations never fail,
so the `getD` defaults are never used). -/
def canonRealmOps (o : CardOracle) (systemSecret uid : List Nat) (realm : Realm) : List CardOp :=
  let appId := NewDESFireAid (baseAppId + realm.slot)
  let uuidArr := goStringBytes (uuidString realm.associationID)
  let mangled := goStringBytes (stripDashes (uuidString realm.associationID))
  let appMasterKey := (DeriveDESFireKey systemSecret appId 0 uid).toOption.getD defaultDESFireKey
  let appAuthKey := (issueAppAuthKey systemSecret realm).toOption.getD defaultDESFireKey
  let appUpdateKey := (DeriveDESFireKey systemSecret appId 3 uuidArr).toOption.getD defaultDESFireKey
  let rs := (o.sign realm.privateKey uuidArr).toOption.getD (0, 0)
  (realmSteps appId appMasterKey (GenDESFireKey realm.readKey) appAuthKey appUpdateKey
    mangled (bigIntBytes rs.1) (bigIntBytes rs.2)).map stepOp

/-- Concatenated canonical operations of a realm list, in list order. -/
def canonRealmsOps (o : CardOracle) (systemSecret uid : List Nat) : List Realm → List CardOp
  | [] => []
  | realm :: rest => canonRealmOps o systemSecret uid realm ++ canonRealmsOps o systemSecret uid rest

/-- The canonical PICC finalization operations. -/
def canonPiccOps (systemSecret uid : List Nat) : List CardOp :=
  (piccSteps ((DeriveDESFireKey systemSecret (NewDESFireAid masterAppId) 0 uid).toOption.getD
    defaultDESFireKey)).map stepOp

/-- Everything a fully successful pass does before the PICC phase: the UID
read followed by every realm's operations in order. -/
def realmPhaseOps (o : CardOracle) (systemSecret : List Nat) (realms : List Realm) : List CardOp :=
  CardOp.cardUID :: canonRealmsOps o systemSecret (o.cardUID.getD []) realms

/-- The complete canonical operation trace of a fully successful pass. -/
def fullIssueOps (o : CardOracle) (systemSecret : List Nat) (realms : List Realm) : List CardOp :=
  realmPhaseOps o systemSecret realms ++ canonPiccOps systemSecret (o.cardUID.getD [])

/-! ## Package `device`: the per-realm authentication pass (part_000 lines 366–442)

`vrf` models `sig.Verify` (ECDSA verification, external crypto). Card errors
are propagated as non-nil errors, as the source does here; their freefare
message is abstracted as `"card operation failed"`. -/

/-- `device.Authenticate`: select the realm's application, authenticate with
the read key, read and parse the identifier file, derive the diversified auth
key from the identifier just read, authenticate with it, read the authenticity
record, verify the signature, and return the identifier read from the card. -/
def Authenticate (o : CardOracle) (vrf : ECPublicKey → List Nat → Nat → Nat → Bool)
    (realm : Realm) : Except String UUID :=
  let appId := NewDESFireAid (baseAppId + realm.slot)
  let appReadKey := GenDESFireKey realm.readKey
  match o.run [] (.selectApplication appId) with
  | none => .error "card operation failed"
  | some _ =>
    let tr1 := [CardOp.selectApplication appId]
    match o.run tr1 (.authenticate 1 appReadKey) with
    | none => .error "card operation failed"
    | some _ =>
      let tr2 := tr1 ++ [CardOp.authenticate 1 appReadKey]
      match o.read tr2 1 0 mangledUUIDLength with
      | none => .error "card operation failed"
      | some dl =>
        if dl.1 ≠ mangledUUIDLength then .error "failed to read UUID from target"
        else
          let tr3 := tr2 ++ [CardOp.readData 1 0 mangledUUIDLength]
          match uuidParseBytes dl.2 with
          | .error e => .error e
          | .ok targetUUID =>
            match authAppAuthKey realm targetUUID with
            | .error e => .error e
            | .ok appAuthKey =>
              match o.run tr3 (.authenticate 2 appAuthKey) with
              | none => .error "card operation failed"
              | some _ =>
                let tr4 := tr3 ++ [CardOp.authenticate 2 appAuthKey]
                match o.read tr4 2 0 authenticityRLength with
                | none => .error "card operation failed"
                | some rdl =>
                  if rdl.1 ≠ authenticityRLength then
                    .error "failed to read authenticity data (R value) from target"
                  else
                    let tr5 := tr4 ++ [CardOp.readData 2 0 authenticityRLength]
                    match o.read tr5 2 authenticityRLength authenticitySLength with
                    | none => .error "card operation failed"
                    | some sdl =>
                      if sdl.1 ≠ authenticitySLength then
                        .error "failed to read authenticity data (S value) from target"
                      else
                        if ¬ vrf realm.publicKey (goStringBytes (uuidString targetUUID))
                            (beNat rdl.2) (beNat sdl.2) then
                          .error "target UUID failed signature verification"
                        else .ok targetUUID

/-! ## Package `tasks`: the issue-task request parsing (`cmd/gkadm/tasks/issue.go`) -/

/-- `tasks.issueRequestRealm`: one realm of an issue request as received over
the wire (`Slot` is a Go `int`). -/
structure IssueRequestRealm where
  name : List Char
  slot : Int
  associationId : List Char
  authKey : List Char
  readKey : List Char
  updateKey : List Char
  publicKey : List Char
  privateKey : List Char

/-- `tasks.issueRequest`. -/
structure IssueRequest where
  systemSecret : List Char
  realms : List IssueRequestRealm

/-- Modelled from the spec: `keys.Decode` (package `keys`; its source file is
not under `src/`) decodes a secret from its textual storage encoding into raw
bytes — "a system secret (raw bytes, caller-decoded from its storage
encoding)" — failing on malformed input ("malformed secret encoding").
Modelled as hexadecimal decoding. -/
def keysDecode (s : List Char) : Except String (List Nat) :=
  match hexPairsDecode s with
  | some bs => .ok bs
  | none => .error "malformed secret encoding"

/-- The per-realm validation/decoding loop of `taskIssue.Run` (issue.go lines
87–135): the slot-range check `realm.Slot < 0 || realm.Slot > 15`, then the
association identifier parse, the three realm secret decodes, and the key
pair decode, stopping at the first error. -/
def parseRealms : List IssueRequestRealm → Except String (List Realm)
  | [] => .ok []
  | realm :: rest =>
    if realm.slot < 0 ∨ 15 < realm.slot then
      .error "invalid slot number for realm, must be between 0-14"
    else
      match uuidParse realm.associationId with
      | .error e => .error e
      | .ok associationId =>
        match keysDecode realm.authKey with
        | .error e => .error e
        | .ok authKey =>
          match keysDecode realm.readKey with
          | .error e => .error e
          | .ok readKey =>
            match keysDecode realm.updateKey with
            | .error e => .error e
            | .ok updateKey =>
              match sigDecode realm.privateKey realm.publicKey with
              | .error e => .error e
              | .ok keyPair =>
                match parseRealms rest with
                | .error e => .error e
                | .ok tl =>
                  .ok (⟨realm.name, realm.slot.toNat, associationId, authKey, readKey,
                        updateKey, keyPair.2, keyPair.1⟩ :: tl)

/-- The full parsing phase of `taskIssue.Run` before any NFC device or card
is touched: decode the system secret, then validate and decode every realm. -/
def parseIssueRequest (req : IssueRequest) : Except String (List Nat × List Realm) :=
  match keysDecode req.systemSecret with
  | .error e => .error e
  | .ok systemSecret =>
    match parseRealms req.realms with
    | .error e => .error e
    | .ok realms => .ok (systemSecret, realms)

/-! ## Concrete fixtures for closed evaluations -/

/-- A concrete EC public key (coordinates abstracted small). -/
def fxPub : ECPublicKey := ⟨1, 2⟩

/-- A concrete EC private key. -/
def fxPriv : ECPrivateKey := ⟨⟨1, 2⟩, 3⟩

/-- The all-zero association identifier. -/
def fxUuidA : UUID := ⟨List.replicate 16 0⟩

/-- An identifier differing from `fxUuidA` in its last byte. -/
def fxUuidB : UUID := ⟨List.replicate 15 0 ++ [1]⟩

/-- A concrete realm in slot 3 associated with `fxUuidA`. -/
def fxRealmA : Realm := ⟨['r'], 3, fxUuidA, [1], [2], [3], fxPub, fxPriv⟩

/-- A realm whose auth secret is the concrete system secret `[7]`. -/
def fxRealmW : Realm := ⟨['w'], 1, fxUuidA, [7], [2], [3], fxPub, fxPriv⟩

/-- An oracle on which every card operation succeeds. -/
def fxHappyOracle : CardOracle :=
  ⟨some [], fun _ _ => some 32, fun _ _ _ len => some (len, List.replicate len 0),
   fun _ _ => .ok (1, 1)⟩

/-- An oracle whose `CardUID` call fails. -/
def fxNoUIDOracle : CardOracle :=
  ⟨none, fun _ _ => some 0, fun _ _ _ _ => none, fun _ _ => .error "sign error"⟩

/-- An oracle failing every `ChangeKeySettings`, so the PICC finalization of
`Issue` fails at its third operation. -/
def fxPiccFailOracle : CardOracle :=
  ⟨some [], fun _ op => match op with | .changeKeySettings _ => none | _ => some 0,
   fun _ _ _ _ => none, fun _ _ => .error "sign error"⟩

/-- An oracle presenting a card whose identifier file holds the mangled form
of `fxUuidB` (all other reads return zeros of the requested length). -/
def fxCardBOracle : CardOracle :=
  ⟨some [], fun _ _ => some 0,
   fun _ fileNo _ len =>
     if fileNo = 1 then some (len, goStringBytes (stripDashes (uuidString fxUuidB)))
     else some (len, List.replicate len 0),
   fun _ _ => .ok (0, 0)⟩

/-- A wire-format realm with slot 15 and otherwise valid fields. -/
def fxReqRealm15 : IssueRequestRealm :=
  ⟨['r'], 15, "00000000-0000-0000-0000-000000000000".toList, "00".toList, "00".toList,
   "00".toList, (EncodePublicKey fxPub).toOption.getD [],
   (EncodePrivateKey fxPriv).toOption.getD []⟩

/-- The same wire-format realm with slot 16. -/
def fxReqRealm16 : IssueRequestRealm :=
  ⟨['r'], 16, "00000000-0000-0000-0000-000000000000".toList, "00".toList, "00".toList,
   "00".toList, (EncodePublicKey fxPub).toOption.getD [],
   (EncodePrivateKey fxPriv).toOption.getD []⟩

/-! ## Basic lemmas -/

theorem beBytes_length : ∀ (k n : Nat), (beBytes k n).length = k := by
  intro k
  induction k with
  | zero => intro n; rfl
  | succ k ih => intro n; simp [beBytes, ih]

theorem digestBytes_length (st : H8) : (digestBytes st).length = 64 := by
  simp [digestBytes, w64be, beBytes_length]

theorem sha512_length (msg : List Nat) : (sha512 msg).length = 64 :=
  digestBytes_length _

theorem hmacSha512_length (key msg : List Nat) : (hmacSha512 key msg).length = 64 :=
  sha512_length _

/-- `DeriveDESFireKey` never fails and equals `GenDESFireKey` of the one-shot
HMAC-SHA-512 over the three segments concatenated in feed order. -/
theorem deriveDESFireKey_eq (secret : List Nat) (appId : DESFireAid) (keyNum : Nat)
    (data : List Nat) :
    DeriveDESFireKey secret appId keyNum data =
      .ok (GenDESFireKey (hmacSha512 secret ([appId.b0, appId.b1, appId.b2] ++ keyNum :: data))) := by
  simp [DeriveDESFireKey, macWrite]

theorem hexDigit_ne_dash (n : Nat) (h : n < 16) : hexDigit n ≠ '-' := by
  interval_cases n <;> decide

theorem hexStr_length : ∀ bs : List Nat, (hexStr bs).length = 2 * bs.length := by
  intro bs
  induction bs with
  | nil => rfl
  | cons b bs ih => simp [hexStr, byteHex, ih]; omega

theorem hexStr_ne_dash : ∀ (bs : List Nat), ∀ c ∈ hexStr bs, c ≠ '-' := by
  intro bs
  induction bs with
  | nil => intro c hc; simp [hexStr] at hc
  | cons b bs ih =>
    intro c hc
    simp only [hexStr, byteHex, List.mem_append, List.mem_cons, List.not_mem_nil,
      or_false] at hc
    rcases hc with (h | h) | h
    · exact h ▸ hexDigit_ne_dash _ (Nat.mod_lt _ (by omega))
    · exact h ▸ hexDigit_ne_dash _ (Nat.mod_lt _ (by omega))
    · exact ih c h

theorem hexStr_filter (bs : List Nat) :
    (hexStr bs).filter (fun x => !decide (x = '-')) = hexStr bs := by
  apply List.filter_eq_self.mpr
  intro a ha
  simpa using hexStr_ne_dash bs a ha

/-- For every well-formed (16-byte) identifier the dash-stripped canonical
string form has exactly 32 characters: the claim C2 asserts the source
intends to check. -/
theorem mangledUUID_length (u : UUID) (h : u.bytes.length = 16) :
    (stripDashes (uuidString u)).length = 32 := by
  simp [stripDashes, uuidString, List.filter_append, hexStr_filter, hexStr_length,
    List.length_take, List.length_drop, h]

/-! ## Trace lemmas for the provisioning pass -/

/-- `runSteps` appends exactly an initial segment of the sequence's operations
to the trace, in order, and appends all of them when it falls through. -/
theorem runSteps_spec (o : CardOracle) :
    ∀ (steps : List Step) (tr : List CardOp),
      ∃ d t, (runSteps o tr steps).1 = tr ++ d ∧ d ++ t = steps.map stepOp ∧
        ((runSteps o tr steps).2 = none → t = []) := by
  intro steps
  induction steps with
  | nil =>
    intro tr
    exact ⟨[], [], by simp [runSteps], by simp, fun _ => rfl⟩
  | cons s rest ih =>
    intro tr
    cases s with
    | simple op =>
      cases hrun : o.run tr op with
      | none =>
        refine ⟨[op], rest.map stepOp, ?_, ?_, ?_⟩
        · simp [runSteps, hrun]
        · simp [stepOp]
        · simp [runSteps, hrun]
      | some n =>
        obtain ⟨d, t, h1, h2, h3⟩ := ih (tr ++ [op])
        refine ⟨op :: d, t, ?_, ?_, ?_⟩
        · simp only [runSteps, hrun]
          simpa using h1
        · simp [stepOp, ← h2]
        · intro h
          apply h3
          simpa [runSteps, hrun] using h
    | write fileNo offset data expected errMsg =>
      cases hrun : o.run tr (.writeData fileNo offset data) with
      | none =>
        refine ⟨[.writeData fileNo offset data], rest.map stepOp, ?_, ?_, ?_⟩
        · simp [runSteps, hrun]
        · simp [stepOp]
        · simp [runSteps, hrun]
      | some n =>
        by_cases hexp : n = expected
        · obtain ⟨d, t, h1, h2, h3⟩ := ih (tr ++ [.writeData fileNo offset data])
          refine ⟨.writeData fileNo offset data :: d, t, ?_, ?_, ?_⟩
          · simp only [runSteps, hrun, if_pos hexp]
            simpa using h1
          · simp [stepOp, ← h2]
          · intro h
            apply h3
            simpa [runSteps, hrun, if_pos hexp] using h
        · refine ⟨[.writeData fileNo offset data], rest.map stepOp, ?_, ?_, ?_⟩
          · simp [runSteps, hrun, if_neg hexp]
          · simp [stepOp]
          · simp [runSteps, hrun, if_neg hexp]

/-- One realm's loop body appends exactly an initial segment of that realm's
canonical operations, all of them when it continues to the next realm. -/
theorem issueRealm_spec (p : GoPlatform) (o : CardOracle) (systemSecret uid : List Nat)
    (tr : List CardOp) (realm : Realm) :
    ∃ d t, (issueRealm p o systemSecret uid tr realm).1 = tr ++ d ∧
      d ++ t = canonRealmOps o systemSecret uid realm ∧
      ((issueRealm p o systemSecret uid tr realm).2 = none → t = []) := by
  simp only [issueRealm, canonRealmOps, issueAppAuthKey, deriveDESFireKey_eq,
    Except.toOption, Option.getD]
  by_cases h1 : p.stringHeaderSize ≠ mangledUUIDLength
  · simp only [if_pos h1]
    exact ⟨[], _, by simp, rfl, by intro h; simp at h⟩
  · simp only [if_neg h1]
    cases hs : o.sign realm.privateKey (goStringBytes (uuidString realm.associationID)) with
    | error e =>
      simp only [hs]
      exact ⟨[], _, by simp, rfl, by intro h; simp at h⟩
    | ok rs =>
      simp only [hs, Except.toOption, Option.getD]
      by_cases h2 : p.sliceHeaderSize ≠ authenticityRLength
      · simp only [if_pos h2]
        exact ⟨[], _, by simp, rfl, by intro h; simp at h⟩
      · simp only [if_neg h2]
        by_cases h3 : p.sliceHeaderSize ≠ authenticitySLength
        · simp only [if_pos h3]
          exact ⟨[], _, by simp, rfl, by intro h; simp at h⟩
        · simp only [if_neg h3]
          exact runSteps_spec o _ tr

/-- The realm loop appends exactly an initial segment of the concatenated
canonical realm operations, all of them when no realm aborts the pass. -/
theorem issueLoop_spec (p : GoPlatform) (o : CardOracle) (systemSecret uid : List Nat) :
    ∀ (realms : List Realm) (tr : List CardOp),
      ∃ d t, (issueLoop p o systemSecret uid tr realms).1 = tr ++ d ∧
        d ++ t = canonRealmsOps o systemSecret uid realms ∧
        ((issueLoop p o systemSecret uid tr realms).2 = none → t = []) := by
  intro realms
  induction realms with
  | nil =>
    intro tr
    exact ⟨[], [], by simp [issueLoop], by simp [canonRealmsOps], fun _ => rfl⟩
  | cons realm rest ih =>
    intro tr
    obtain ⟨d1, t1, h1, h2, h3⟩ := issueRealm_spec p o systemSecret uid tr realm
    rcases hIR : issueRealm p o systemSecret uid tr realm with ⟨tr2, res⟩
    rw [hIR] at h1 h3
    cases res with
    | some r =>
      refine ⟨d1, t1 ++ canonRealmsOps o systemSecret uid rest, ?_, ?_, ?_⟩
      · simp [issueLoop, hIR, h1]
      · simp [canonRealmsOps, ← List.append_assoc, h2]
      · simp [issueLoop, hIR]
    | none =>
      have ht1 : t1 = [] := h3 rfl
      subst ht1
      replace h1 : tr2 = tr ++ d1 := h1
      subst h1
      obtain ⟨d2, t2, g1, g2, g3⟩ := ih (tr ++ d1)
      refine ⟨d1 ++ d2, t2, ?_, ?_, ?_⟩
      · simp [issueLoop, hIR, g1]
      · simp only [canonRealmsOps, List.append_assoc, g2]
        simp [← h2]
      · intro h
        apply g3
        simpa [issueLoop, hIR] using h

/-! ## Claim theorems -/

/-- C1: the claim states that whenever any card operation inside `Issue`
fails, `Issue` returns a non-nil error and performs no further card
operations. The code does stop, but its card-operation failure branches
execute `return nil`: with a failing `CardUID` call, and likewise with a
failing PICC-level `ChangeKeySettings` (the pass stops after the 4th of the 8
attempted operations), `Issue` returns the Go `nil` error — reporting
success after a failed step. -/
theorem c1_issue_returns_nil_after_failed_step :
    Issue amd64 fxNoUIDOracle [0] [fxRealmA] = ([CardOp.cardUID], none) ∧
    (Issue amd64 fxPiccFailOracle [] []).2 = none ∧
    (Issue amd64 fxPiccFailOracle [] []).1.length = 4 :=
  ⟨by decide, by decide, by decide⟩

/-- C2: the claim states the `unexpected size of mangled UUID` branch is
unreachable for valid identifiers. The dash-stripped canonical form of the
(valid) all-zero identifier does have exactly the declared 32 characters,
yet on the 64-bit platform `Issue` with an all-succeeding card still returns
that very error after only the UID read, because the source compares
`unsafe.Sizeof` of the string header (16) — not the string's length —
against 32. -/
theorem c2_size_check_rejects_valid_identifier :
    (stripDashes (uuidString fxRealmA.associationID)).length = 32 ∧
    Issue amd64 fxHappyOracle [0] [fxRealmA] =
      ([CardOp.cardUID], some "unexpected size of mangled UUID") :=
  ⟨by decide, by decide⟩

/-- C3 (counterexample): a card session presenting a validly signed
identifier `fxUuidB` different from the caller-expected
`fxRealmA.associationID` makes `Authenticate` succeed and return `fxUuidB` —
refuting the claim that a mismatch with the caller-expected identifier makes
`Authenticate` fail. -/
theorem c3_authenticate_accepts_mismatched_identifier :
    Authenticate fxCardBOracle (fun _ _ _ _ => true) fxRealmA = .ok fxUuidB ∧
    fxUuidB ≠ fxRealmA.associationID :=
  ⟨by decide, by decide⟩

/-- C3 (amended): `Authenticate` returns the signature-verified identifier
read from the card without ever comparing it against the caller-expected
`associationID`: its result is invariant under changing the realm's
`associationID` field, and when the signature verification model rejects,
`Authenticate` never returns an identifier. -/
theorem c3_authenticate_ignores_expected_identifier :
    ∀ (o : CardOracle) (vrf : ECPublicKey → List Nat → Nat → Nat → Bool)
      (realm : Realm) (u : UUID),
      Authenticate o vrf { realm with associationID := u } = Authenticate o vrf realm ∧
      ∀ v : UUID, Authenticate o (fun _ _ _ _ => false) realm ≠ .ok v := by
  intro o vrf realm u
  constructor
  · cases realm
    rfl
  · intro v h
    simp only [Authenticate] at h
    repeat' split at h
    all_goals simp_all

/-- C3 (witness): the amended theorem instantiated at a concrete session. -/
theorem c3_authenticate_ignores_expected_identifier_witness :
    Authenticate fxCardBOracle (fun _ _ _ _ => true) { fxRealmA with associationID := fxUuidB } =
      Authenticate fxCardBOracle (fun _ _ _ _ => true) fxRealmA ∧
    ∀ v : UUID, Authenticate fxCardBOracle (fun _ _ _ _ => false) fxRealmA ≠ .ok v :=
  c3_authenticate_ignores_expected_identifier fxCardBOracle (fun _ _ _ _ => true) fxRealmA fxUuidB

/-- C4: the diversified auth key `Authenticate` derives — from the realm's
local auth secret, the realm's application id, key number 2, and the
identifier read from the card — equals the auth key `Issue` derives and
writes into key slot 2, whenever the local auth secret equals the system
secret used at issuance and the identifier read equals the realm's
association identifier. -/
theorem c4_auth_key_matches_issued_key (systemSecret : List Nat) (realm : Realm)
    (targetUUID : UUID) (hsecret : realm.authKey = systemSecret)
    (hid : targetUUID = realm.associationID) :
    authAppAuthKey realm targetUUID = issueAppAuthKey systemSecret realm := by
  subst hsecret
  subst hid
  rfl

/-- C4 (witness): the agreement at a concrete realm whose auth secret is the
system secret `[7]`. -/
theorem c4_auth_key_matches_issued_key_witness :
    fxRealmW.authKey = [7] ∧ fxRealmW.associationID = fxRealmW.associationID ∧
    authAppAuthKey fxRealmW fxRealmW.associationID = issueAppAuthKey [7] fxRealmW :=
  ⟨rfl, rfl, c4_auth_key_matches_issued_key [7] fxRealmW fxRealmW.associationID rfl rfl⟩

/-- C5: the private-key PEM round trip returns the key and a wrong-tagged
block is rejected with a descriptive error, but the public-key round trip
claimed by the spec fails for every key: `DecodePublicKey` asserts the
dynamic type `ecdsa.PublicKey` while `x509.ParsePKIXPublicKey` returns
`*ecdsa.PublicKey`, so decoding its own encoder's output errors. -/
theorem c5_public_key_decode_roundtrip_fails :
    DecodePrivateKey ((EncodePrivateKey fxPriv).toOption.getD []) = .ok fxPriv ∧
    DecodePublicKey ((EncodePublicKey fxPub).toOption.getD []) =
      .error "failed to parse PKIX block containing ECDSA public key" ∧
    DecodePrivateKey ((EncodePublicKey fxPub).toOption.getD []) =
      .error "failed to decode PEM block containing private key" :=
  ⟨by decide, by decide, by decide⟩

/-- C6: `DeriveDESFireKey` is total (never returns an error) and its key is
`GenDESFireKey` of the one-shot HMAC-SHA-512 of the secret over the three
segments — AID bytes, key-number byte, diversifier — concatenated in feed
order; the key's bytes are exactly the first 16 bytes of the 64-byte MAC
output. Determinism is immediate: the embedding is a pure function of its
four arguments. -/
theorem c6_derive_is_truncated_hmac (secret : List Nat) (b0 b1 b2 keyNum : Nat)
    (data : List Nat) :
    DeriveDESFireKey secret ⟨b0, b1, b2⟩ keyNum data =
      .ok (GenDESFireKey (hmacSha512 secret ([b0, b1, b2] ++ keyNum :: data))) ∧
    (GenDESFireKey (hmacSha512 secret ([b0, b1, b2] ++ keyNum :: data))).bytes =
      (hmacSha512 secret ([b0, b1, b2] ++ keyNum :: data)).take 16 := by
  constructor
  · exact deriveDESFireKey_eq secret ⟨b0, b1, b2⟩ keyNum data
  · simp [GenDESFireKey, hmacSha512_length]

/-- C7: for every platform, card behavior, secret and realm list, the card
operations `Issue` attempts are an initial segment — same operations, same
order, nothing skipped or reordered, nothing after the stopping point — of
the canonical fully-successful trace (UID read, then each realm's §4.4
sequence in list order, then the PICC finalization); and whenever the trace
extends past the realm phase, the complete realm phase — every operation of
every realm — is an initial segment of it, so the PICC master-key rotation
happens only after every realm application has been fully provisioned. -/
theorem c7_issue_operation_ordering (p : GoPlatform) (o : CardOracle)
    (systemSecret : List Nat) (realms : List Realm) :
    (∃ t, (Issue p o systemSecret realms).1 ++ t = fullIssueOps o systemSecret realms) ∧
    ((realmPhaseOps o systemSecret realms).length < (Issue p o systemSecret realms).1.length →
      ∃ t, realmPhaseOps o systemSecret realms ++ t = (Issue p o systemSecret realms).1) := by
  cases hu : o.cardUID with
  | none =>
    have hIss : Issue p o systemSecret realms = ([CardOp.cardUID], none) := by
      simp [Issue, hu]
    constructor
    · refine ⟨canonRealmsOps o systemSecret [] realms ++ canonPiccOps systemSecret [], ?_⟩
      rw [hIss]
      simp [fullIssueOps, realmPhaseOps, hu]
    · intro hlen
      rw [hIss] at hlen
      simp [realmPhaseOps] at hlen
  | some uid =>
    obtain ⟨d1, t1, h1, h2, h3⟩ := issueLoop_spec p o systemSecret uid realms [CardOp.cardUID]
    cases hres : (issueLoop p o systemSecret uid [CardOp.cardUID] realms).2 with
    | some r =>
      have hIss : Issue p o systemSecret realms =
          ((issueLoop p o systemSecret uid [CardOp.cardUID] realms).1, r) := by
        simp [Issue, hu, deriveDESFireKey_eq, hres]
      constructor
      · refine ⟨t1 ++ canonPiccOps systemSecret uid, ?_⟩
        rw [hIss]
        simp only [h1]
        simp only [fullIssueOps, realmPhaseOps, hu, Option.getD_some, List.cons_append,
          List.nil_append, List.append_assoc]
        rw [← List.append_assoc d1 t1, h2]
      · intro hlen
        exfalso
        have hd1 : d1.length ≤ (canonRealmsOps o systemSecret uid realms).length := by
          rw [← h2]
          simp
        rw [hIss] at hlen
        rw [h1] at hlen
        simp [realmPhaseOps, hu] at hlen
        omega
    | none =>
      have ht1 : t1 = [] := h3 hres
      subst ht1
      have hd1 : d1 = canonRealmsOps o systemSecret uid realms := by simpa using h2
      obtain ⟨d2, t2, g1, g2, g3⟩ := runSteps_spec o
        (piccSteps (GenDESFireKey (hmacSha512 systemSecret
          ([(NewDESFireAid masterAppId).b0, (NewDESFireAid masterAppId).b1,
            (NewDESFireAid masterAppId).b2] ++ 0 :: uid))))
        (issueLoop p o systemSecret uid [CardOp.cardUID] realms).1
      have hIss1 : (Issue p o systemSecret realms).1 =
          (runSteps o (issueLoop p o systemSecret uid [CardOp.cardUID] realms).1
            (piccSteps (GenDESFireKey (hmacSha512 systemSecret
              ([(NewDESFireAid masterAppId).b0, (NewDESFireAid masterAppId).b1,
                (NewDESFireAid masterAppId).b2] ++ 0 :: uid))))).1 := by
        simp only [Issue, hu, deriveDESFireKey_eq, hres]
        cases hpr : (runSteps o (issueLoop p o systemSecret uid [CardOp.cardUID] realms).1
            (piccSteps (GenDESFireKey (hmacSha512 systemSecret
              ([(NewDESFireAid masterAppId).b0, (NewDESFireAid masterAppId).b1,
                (NewDESFireAid masterAppId).b2] ++ 0 :: uid))))).2 <;>
          simp [hpr]
      have hcanonPicc : canonPiccOps systemSecret uid =
          (piccSteps (GenDESFireKey (hmacSha512 systemSecret
            ([(NewDESFireAid masterAppId).b0, (NewDESFireAid masterAppId).b1,
              (NewDESFireAid masterAppId).b2] ++ 0 :: uid)))).map stepOp := by
        simp [canonPiccOps, deriveDESFireKey_eq, Except.toOption, Option.getD]
      constructor
      · refine ⟨t2, ?_⟩
        rw [hIss1, g1, h1, hd1]
        simp only [fullIssueOps, realmPhaseOps, hu, Option.getD_some, hcanonPicc,
          List.cons_append, List.nil_append, List.append_assoc, g2]
      · intro _
        refine ⟨d2, ?_⟩
        rw [hIss1, g1, h1, hd1]
        simp [realmPhaseOps, hu]

/-- C7 (witness): the ordering theorem at a concrete run that enters the
PICC phase and stops at its failing third operation. -/
theorem c7_issue_operation_ordering_witness :
    (∃ t, (Issue amd64 fxPiccFailOracle [] []).1 ++ t = fullIssueOps fxPiccFailOracle [] []) ∧
    ((realmPhaseOps fxPiccFailOracle [] []).length < (Issue amd64 fxPiccFailOracle [] []).1.length →
      ∃ t, realmPhaseOps fxPiccFailOracle [] [] ++ t = (Issue amd64 fxPiccFailOracle [] []).1) :=
  c7_issue_operation_ordering amd64 fxPiccFailOracle [] []

/-- C8: the claim states slot 15 is rejected by the issue task's
request-parsing step. The source's check `realm.Slot < 0 || realm.Slot > 15`
accepts 15 — contradicting its own error message "must be between 0-14" —
so a slot-15 realm with otherwise valid fields sails past the slot check and
parsing proceeds to the later key-pair decode (whose PKIX failure is the
error observed); slot 16 is rejected with the slot error, locating the
boundary the code actually enforces. -/
theorem c8_slot_fifteen_not_rejected :
    parseRealms [fxReqRealm15] = .error "failed to parse PKIX block containing ECDSA public key" ∧
    parseRealms [fxReqRealm16] = .error "invalid slot number for realm, must be between 0-14" :=
  ⟨by decide, by decide⟩

/-- C10: `GenDESFireKey` depends only on the first 16 bytes of its input —
inputs agreeing on their first 16 bytes give equal keys — zero-pads shorter
inputs, and silently truncates longer ones (so a long realm read key is
truncated when installed, and `DeriveDESFireKey` keeps exactly the first 16
of the 64 HMAC output bytes). -/
theorem c10_gen_key_uses_first_sixteen (a b secret : List Nat) (b0 b1 b2 keyNum : Nat)
    (data : List Nat) :
    (a.take 16 = b.take 16 → GenDESFireKey a = GenDESFireKey b) ∧
    (GenDESFireKey a).bytes = a.take 16 ++ List.replicate (16 - a.length) 0 ∧
    (hmacSha512 secret ([b0, b1, b2] ++ keyNum :: data)).length = 64 ∧
    DeriveDESFireKey secret ⟨b0, b1, b2⟩ keyNum data =
      .ok ⟨(hmacSha512 secret ([b0, b1, b2] ++ keyNum :: data)).take 16, 0⟩ := by
  refine ⟨?_, rfl, hmacSha512_length _ _, ?_⟩
  · intro h
    have hlen : min 16 a.length = min 16 b.length := by
      have := congrArg List.length h
      simpa [List.length_take] using this
    have hsub : 16 - a.length = 16 - b.length := by omega
    simp [GenDESFireKey, h, hsub]
  · rw [deriveDESFireKey_eq]
    simp [GenDESFireKey, hmacSha512_length]

/-- C10 (witness): two 16-byte-agreeing inputs, one longer than 16 bytes,
produce the same installed key. -/
theorem c10_gen_key_uses_first_sixteen_witness :
    (List.replicate 20 7).take 16 = (List.replicate 16 7 ++ [9]).take 16 ∧
    GenDESFireKey (List.replicate 20 7) = GenDESFireKey (List.replicate 16 7 ++ [9]) :=
  ⟨by decide,
   (c10_gen_key_uses_first_sixteen (List.replicate 20 7) (List.replicate 16 7 ++ [9])
     [] 0 0 0 0 []).1 (by decide)⟩

end Gatekeeper
